import Mathlib

/-!
Verification of the packaging script of WK_LoadIntoLevel (src/package.py).

The script is shallowly embedded: the filesystem is an association list from
project-root-relative path to file data, the external git invocation is an
explicit outcome value, process termination via sys.exit(n) is `Except.error n`,
and the XML project file is a record of the three consumed text fields
(the fixed element query paths `.//PropertyGroup/AssemblyName`, `Version` and
`Product` are modelled by record field accessors).  The JSON and zip byte
codecs are external collaborators (spec section 1); a JSON value is therefore
kept as a structured value (`JVal`), whose byte encoding by the json library is
a fixed deterministic function of it.
-/

namespace WKLoad

/-! ## Basic string helpers (Python semantics) -/

/-- Does list `s` start with `p`?  Models Python `str.startswith` on chars. -/
def leadsWith : List Char → List Char → Bool
  | [], _ => true
  | _ :: _, [] => false
  | p :: ps, c :: cs => p == c && leadsWith ps cs

/-- ASCII whitespace per Python `str.strip` / regex `\s` (the inputs at stake
are ASCII). -/
def isSpaceChar (c : Char) : Bool :=
  c = ' ' || c = '\t' || c = '\n' || c = '\r' || c = '\x0b' || c = '\x0c'

/-- Python `str.strip()`. -/
def pyStrip (s : String) : String :=
  String.mk (((s.data.dropWhile isSpaceChar).reverse.dropWhile isSpaceChar).reverse)

/-- Python `" ".join(lst)`. -/
def joinWithSpaces : List String → String
  | [] => ""
  | [s] => s
  | s :: rest => s ++ " " ++ joinWithSpaces rest

/-- Last path component (Python `Path(...).name` for the paths at stake). -/
def baseName (s : String) : String :=
  String.mk ((s.data.reverse.takeWhile (fun c => !(c == '/'))).reverse)

/-- Does the string contain a path separator? -/
def hasSlash (s : String) : Bool := s.data.any (fun c => c == '/')

/-! ## CsprojGetter (lines 131-177 of package.py) -/

/-- The three text fields the script reads from the project file.  Each is
`none` when the element is absent (or has no text at all). -/
structure Csproj where
  assemblyName : Option String
  version : Option String
  product : Option String
deriving DecidableEq

/-- A parsed project file: `none` models an unparseable file (load_csproj
exits with code 1 in that case, before any lookup). -/
abbrev CsprojFile := Option Csproj

/-- CsprojGetter.retreive_csproj_element: returns the element text when the
element exists and its text is truthy (non-None, non-empty); otherwise the
process exits with code 1 (`Except.error 1`).  An unparseable file already
exits with code 1 inside load_csproj. -/
def retreive_csproj_element (file : CsprojFile) (field : Csproj → Option String) :
    Except Nat String :=
  match file with
  | none => Except.error 1
  | some root =>
    match field root with
    | some t => if t = "" then Except.error 1 else Except.ok t
    | none => Except.error 1

/-- CsprojGetter.get_dll_name. -/
def get_dll_name (file : CsprojFile) : Except Nat String :=
  match retreive_csproj_element file Csproj.assemblyName with
  | Except.error k => Except.error k
  | Except.ok t => Except.ok (t ++ ".dll")

/-- CsprojGetter.get_dll_version. -/
def get_dll_version (file : CsprojFile) : Except Nat String :=
  retreive_csproj_element file Csproj.version

/-- CsprojGetter.get_mod_name. -/
def get_mod_name (file : CsprojFile) : Except Nat String :=
  retreive_csproj_element file Csproj.product

/-- DLL_SOURCE_FOLDER constant (relative to the project root). -/
def DLL_SOURCE_FOLDER : String := "bin/Debug/net472"

/-- CsprojGetter.get_dll_path (project-root-relative). -/
def get_dll_path (file : CsprojFile) : Except Nat String :=
  match get_dll_name file with
  | Except.error k => Except.error k
  | Except.ok dn => Except.ok (DLL_SOURCE_FOLDER ++ "/" ++ dn)

/-! ## get_description (lines 92-128): the Summary section of README.md -/

/-- Does the line match the regex `^#+\s*Summary` (re.IGNORECASE)?  One or
more `#`, then optional whitespace, then the literal `Summary` in any case. -/
def matchesSummaryHead (line : String) : Bool :=
  let cs := line.data
  let hashes := cs.takeWhile (fun c => c == '#')
  let rest := (cs.dropWhile (fun c => c == '#')).dropWhile isSpaceChar
  !hashes.isEmpty && ((rest.take 7).map Char.toLower == ("summary").data)

/-- Python `line.startswith("#")`. -/
def headingB (line : String) : Bool := leadsWith (("#").data) line.data

/-- The loop body once `in_summary_section` is True: a further line matching
the Summary pattern is skipped (the `continue`), any other line starting with
`#` ends the section, other lines contribute their stripped text when
non-empty. -/
def collectSummary : List String → List String
  | [] => []
  | l :: ls =>
    if matchesSummaryHead l then collectSummary ls
    else if headingB l then []
    else if pyStrip l = "" then collectSummary ls
    else pyStrip l :: collectSummary ls

/-- The loop before the first Summary heading: lines are skipped until a line
matches the Summary pattern. -/
def scanSummary : List String → List String
  | [] => []
  | l :: ls => if matchesSummaryHead l then collectSummary ls else scanSummary ls

/-- get_description: `none` models an absent README.md (warning, empty
result); otherwise the file's lines are scanned and the collected stripped
lines joined with single spaces (`" ".join`); an empty collection yields
the empty string, as in the source. -/
def get_description (readme : Option (List String)) : String :=
  match readme with
  | none => ""
  | some lines => joinWithSpaces (scanSummary lines)

/-! ## get_github_url (lines 59-89) -/

/-- Outcome of `git remote get-url origin`: the tool may be absent
(FileNotFoundError) or run with an exit code and captured stdout. -/
inductive GitOutcome where
  | absent
  | ran (exitCode : Int) (stdout : String)

/-- The SSH host pattern `git@github.com:`, as an explicit char list. -/
def sshPat : List Char :=
  ['g', 'i', 't', '@', 'g', 'i', 't', 'h', 'u', 'b', '.', 'c', 'o', 'm', ':']

/-- The GitHub web URL pattern `https://github.com/`, as an explicit char
list. -/
def webPat : List Char :=
  ['h', 't', 't', 'p', 's', ':', '/', '/', 'g', 'i', 't', 'h', 'u', 'b', '.',
   'c', 'o', 'm', '/']

/-- Python `str.replace(old, new)` replaces every non-overlapping occurrence,
scanning left to right; specialised to old = sshPat, new = webPat.  The fuel
is the input length, which suffices since every step consumes at least one
input character. -/
def replaceSshAux : Nat → List Char → List Char
  | 0, l => l
  | _ + 1, [] => []
  | fuel + 1, c :: cs =>
    if leadsWith sshPat (c :: cs) then
      webPat ++ replaceSshAux fuel ((c :: cs).drop sshPat.length)
    else
      c :: replaceSshAux fuel cs

/-- Python `result.replace("git@github.com:", "https://github.com/")`. -/
def pyReplaceSsh (s : String) : String :=
  String.mk (replaceSshAux s.data.length s.data)

/-- get_github_url: never exits the process; each branch yields a string
(the except/else branches log and fall through to `return ""`). -/
def get_github_url (g : GitOutcome) : String :=
  match g with
  | GitOutcome.absent => ""
  | GitOutcome.ran code out =>
    if code = 0 then
      let result := pyStrip out
      if leadsWith webPat result.data then result
      else if leadsWith sshPat result.data then pyReplaceSsh result
      else ("")
    else ("")

/-! ## build_manifest (lines 269-282) -/

/-- The JSON value shapes occurring in the manifest. -/
inductive JVal where
  | jstr (s : String)
  | jlist (l : List String)
deriving DecidableEq

/-- The manifest record of the spec's data model. -/
structure ManifestRecord where
  name : String
  description : String
  version_number : String
  website_url : String
  dependencies : List String
deriving DecidableEq

/-- Code-point lexicographic strict order on char lists (Python's `str`
comparison, used by `sort_keys=True`). -/
def strLtCore : List Char → List Char → Bool
  | [], [] => false
  | [], _ :: _ => true
  | _ :: _, [] => false
  | a :: as, b :: bs =>
    if a.toNat < b.toNat then true
    else if b.toNat < a.toNat then false
    else strLtCore as bs

/-- Non-strict code-point order on strings. -/
def strLeB (a b : String) : Bool := strLtCore a.data b.data || a == b

/-- Insert a key-value pair into a key-sorted list (ascending). -/
def insertPair (x : String × JVal) : List (String × JVal) → List (String × JVal)
  | [] => [x]
  | y :: ys => if strLeB x.1 y.1 then x :: y :: ys else y :: insertPair x ys

/-- Sort an association list by key (models `json.dump(..., sort_keys=True)`;
the manifest keys are pairwise distinct, so stability is moot). -/
def sortPairs : List (String × JVal) → List (String × JVal)
  | [] => []
  | x :: xs => insertPair x (sortPairs xs)

/-- Is a key list strictly ascending in code-point order? -/
def sortedKeysB : List String → Bool
  | [] => true
  | [_] => true
  | a :: b :: rest => strLtCore a.data b.data && sortedKeysB (b :: rest)

/-- build_manifest: populates the dict in source order (name, description,
version_number, website_url, dependencies) and serializes it with sorted
keys.  get_mod_name and get_dll_version may exit the process (code 1);
get_description and get_github_url never do. -/
def build_manifest (c : CsprojFile) (readme : Option (List String)) (g : GitOutcome) :
    Except Nat (List (String × JVal)) :=
  match get_mod_name c with
  | Except.error k => Except.error k
  | Except.ok n =>
    match get_dll_version c with
    | Except.error k => Except.error k
    | Except.ok v =>
      Except.ok (sortPairs
        [("name", JVal.jstr n),
         ("description", JVal.jstr (get_description readme)),
         ("version_number", JVal.jstr v),
         ("website_url", JVal.jstr (get_github_url g)),
         ("dependencies", JVal.jlist ["BepInEx-BepInExPack-5.4.2100"])])

/-- Parse a manifest JSON object back into the record (field lookups, as
`json.load` followed by key access would do). -/
def parseManifest (pairs : List (String × JVal)) : Option ManifestRecord :=
  match pairs.lookup ("name"), pairs.lookup ("description"),
      pairs.lookup ("version_number"), pairs.lookup ("website_url"),
      pairs.lookup ("dependencies") with
  | some (JVal.jstr n), some (JVal.jstr d), some (JVal.jstr v),
      some (JVal.jstr w), some (JVal.jlist deps) =>
    some ⟨n, d, v, w, deps⟩
  | _, _, _, _, _ => none

/-! ## FilePackager (lines 180-266) -/

/-- Bytes of a file: ordinary opaque file content, or the manifest written by
build_manifest (its byte encoding by the json library is a fixed function of
the structured value, so equal values give identical bytes). -/
inductive FileData where
  | text (s : String)
  | json (pairs : List (String × JVal))
deriving DecidableEq

/-- The filesystem visible to the script: project-root-relative path to file
data, first binding wins. -/
abbrev FS := List (String × FileData)

/-- FileSpec dataclass. -/
structure FileSpec where
  path : String
  required : Bool
  rename_to : Option String := none
deriving DecidableEq

/-- DEFAULT_FILESPEC (lines 39-44). -/
def DEFAULT_FILESPEC : List FileSpec :=
  [⟨"manifest.json", true, none⟩,
   ⟨"img/icon.png", true, some ("icon.png")⟩,
   ⟨"README.md", true, none⟩,
   ⟨"CHANGELOG.md", false, none⟩]

/-- The fields of FilePackager computed in __init__. -/
structure Packager where
  dll_name : String
  dll_source_path : String
  temp_dir : String
  zip_file_name : String
deriving DecidableEq

/-- The staging directory name (dist/temp_package_{timestamp}). -/
def tempDirName (ts : String) : String := "dist/temp_package_" ++ ts

/-- The timestamp-independent part of FilePackager.__init__: dll_name,
dll_source_path, and the zip file name {mod name}-{version}.zip.  Any getter
failure exits the process (code 1). -/
def mkPackagerCore (c : CsprojFile) : Except Nat (String × String × String) :=
  match get_dll_name c with
  | Except.error k => Except.error k
  | Except.ok dn =>
    match get_dll_path c with
    | Except.error k => Except.error k
    | Except.ok sp =>
      match get_mod_name c with
      | Except.error k => Except.error k
      | Except.ok mn =>
        match get_dll_version c with
        | Except.error k => Except.error k
        | Except.ok v => Except.ok (dn, sp, mn ++ "-" ++ v ++ ".zip")

/-- FilePackager.__init__. -/
def mkPackager (c : CsprojFile) (ts : String) : Except Nat Packager :=
  match mkPackagerCore c with
  | Except.error k => Except.error k
  | Except.ok t => Except.ok ⟨t.1, t.2.1, tempDirName ts, t.2.2⟩

/-- FilePackager.prepare_file_spec: the default list plus the derived DLL
entry (the staging directory is created fresh here; its contents start
empty). -/
def prepare_file_spec (p : Packager) : List FileSpec :=
  DEFAULT_FILESPEC ++ [⟨p.dll_source_path, true, some p.dll_name⟩]

/-- Destination name of a spec inside the staging directory:
`file_spec.rename_to or source_file_path.name`. -/
def destNameOf (spec : FileSpec) : String :=
  spec.rename_to.getD (baseName spec.path)

/-- shutil.copy into the staging directory: overwrites an existing entry of
the same name, else appends. -/
def stagePut (st : List (String × FileData)) (n : String) (d : FileData) :
    List (String × FileData) :=
  if st.any (fun e => e.1 == n) then
    st.map (fun e => if e.1 == n then (n, d) else e)
  else st ++ [(n, d)]

/-- FilePackager.copy_files over the spec list.  A missing required file
exits with code 1 (after removing the staging directory).  A destination name
containing a path separator makes shutil.copy raise (the parent directory
does not exist inside the fresh staging directory); the blanket `except`
then exits with code 1.  A missing optional file is skipped. -/
def copy_files (fs : FS) (staged : List (String × FileData)) :
    List FileSpec → Except Nat (List (String × FileData))
  | [] => Except.ok staged
  | spec :: rest =>
    match fs.lookup spec.path with
    | some content =>
      if hasSlash (destNameOf spec) then Except.error 1
      else copy_files fs (stagePut staged (destNameOf spec) content) rest
    | none =>
      if spec.required then Except.error 1
      else copy_files fs staged rest

/-- Injected environment faults: an unexpected exception inside the copy loop
(caught by the blanket `except` of copy_files), and an exception while
writing the archive (caught in zip_files). -/
structure Faults where
  copyRaise : Bool
  zipRaise : Bool
deriving DecidableEq

/-- Result of a FilePackager run: the archive (entry name, entry bytes, in
staging order — os.walk over the flat staging directory) and the zip path, or
process termination with an exit code. -/
inductive RunResult where
  | success (archive : List (String × FileData)) (zipName : String)
  | exited (code : Nat)
deriving DecidableEq

/-- Observable end state of a run: the result plus whether the staging
directory is gone when the process terminates. -/
structure RunState where
  result : RunResult
  stagingAbsent : Bool
deriving DecidableEq

/-- FilePackager.process = prepare_file_spec; copy_files; zip_files.
Every exit path removes the staging directory: the two abort paths of
copy_files call rmtree before sys.exit(1) (sys.exit raises SystemExit, which
the blanket `except Exception` does not intercept), and zip_files runs
rmtree in a `finally` block on success as well as on the sys.exit(1) of its
except branch. -/
def process (fs : FS) (p : Packager) (f : Faults) : RunState :=
  if f.copyRaise then ⟨RunResult.exited 1, true⟩
  else
    match copy_files fs [] (prepare_file_spec p) with
    | Except.error k => ⟨RunResult.exited k, true⟩
    | Except.ok staged =>
      if f.zipRaise then ⟨RunResult.exited 1, true⟩
      else ⟨RunResult.success staged p.zip_file_name, true⟩

/-- A full FilePackager lifetime: __init__ (which can exit before the staging
directory ever exists) and then process. -/
def runPackager (c : CsprojFile) (fs : FS) (ts : String) (f : Faults) : RunState :=
  match mkPackager c ts with
  | Except.error k => ⟨RunResult.exited k, true⟩
  | Except.ok p => process fs p f

/-! ## main (lines 285-293): build_manifest then FilePackager().process() -/

/-- Write (or overwrite) one file of the filesystem. -/
def fsWrite (fs : FS) (k : String) (d : FileData) : FS :=
  (k, d) :: fs.filter (fun e => !(e.1 == k))

/-- Split on a newline character (Python readlines, with the newlines that
the later strip/startswith handling makes irrelevant removed). -/
def splitNl : List Char → List (List Char)
  | [] => [[]]
  | c :: cs =>
    if c == '\n' then [] :: splitNl cs
    else
      match splitNl cs with
      | [] => [[c]]
      | l :: ls => (c :: l) :: ls

/-- The README lines read by get_description, taken from the filesystem. -/
def readmeOf (fs : FS) : Option (List String) :=
  match fs.lookup ("README.md") with
  | some (FileData.text s) => some ((splitNl s.data).map (fun l => String.mk l))
  | _ => none

/-- Observable outcome of main: the manifest value written (none when the
process exited before the write) and the packager run state. -/
structure MainOut where
  manifestWritten : Option (List (String × JVal))
  run : RunState
deriving DecidableEq

/-- main: build_manifest (writing manifest.json at the project root), then
FilePackager() and process. -/
def mainRun (c : CsprojFile) (fs : FS) (g : GitOutcome) (ts : String) (f : Faults) :
    MainOut :=
  match build_manifest c (readmeOf fs) g with
  | Except.error k => ⟨none, ⟨RunResult.exited k, true⟩⟩
  | Except.ok pairs =>
    match mkPackagerCore c with
    | Except.error k => ⟨some pairs, ⟨RunResult.exited k, true⟩⟩
    | Except.ok t =>
      ⟨some pairs,
       process (fsWrite fs ("manifest.json") (FileData.json pairs))
         ⟨t.1, t.2.1, tempDirName ts, t.2.2⟩ f⟩

/-- The filesystem as main leaves it: the manifest file has been written
when build_manifest succeeded (the archive lands under dist/, outside the
staged source files). -/
def fsAfterMain (c : CsprojFile) (fs : FS) (g : GitOutcome) : FS :=
  match build_manifest c (readmeOf fs) g with
  | Except.error _ => fs
  | Except.ok pairs => fsWrite fs ("manifest.json") (FileData.json pairs)

/-! ## Helper lemmas -/

theorem strDataAppend (s t : String) : (s ++ t).data = s.data ++ t.data := by
  cases s; cases t; rfl

theorem append_dll_ne (s n : String) (h : n.data.reverse.headD ' ' ≠ 'l') :
    ¬(s ++ ".dll" = n) := by
  intro he
  apply h
  rw [← he, strDataAppend, List.reverse_append]
  rfl

theorem append_dll_ne_empty (s : String) : ¬(s ++ ".dll" = "") := by
  apply append_dll_ne
  intro h
  exact absurd h (by decide)

theorem sortPairs_manifest (n d v w : String) (deps : List String) :
    sortPairs
      [("name", JVal.jstr n), ("description", JVal.jstr d),
       ("version_number", JVal.jstr v), ("website_url", JVal.jstr w),
       ("dependencies", JVal.jlist deps)] =
    [("dependencies", JVal.jlist deps), ("description", JVal.jstr d),
     ("name", JVal.jstr n), ("version_number", JVal.jstr v),
     ("website_url", JVal.jstr w)] := by
  simp [sortPairs, insertPair,
    show strLeB ("website_url") ("dependencies") = false from rfl,
    show strLeB ("version_number") ("dependencies") = false from rfl,
    show strLeB ("version_number") ("website_url") = true from rfl,
    show strLeB ("description") ("dependencies") = false from rfl,
    show strLeB ("description") ("version_number") = true from rfl,
    show strLeB ("name") ("dependencies") = false from rfl,
    show strLeB ("name") ("description") = false from rfl,
    show strLeB ("name") ("version_number") = true from rfl]

theorem build_manifest_ok (c : CsprojFile) (rd : Option (List String)) (g : GitOutcome)
    (n v : String) (hn : get_mod_name c = Except.ok n)
    (hv : get_dll_version c = Except.ok v) :
    build_manifest c rd g =
      Except.ok
        [("dependencies", JVal.jlist ["BepInEx-BepInExPack-5.4.2100"]),
         ("description", JVal.jstr (get_description rd)),
         ("name", JVal.jstr n),
         ("version_number", JVal.jstr v),
         ("website_url", JVal.jstr (get_github_url g))] := by
  rw [build_manifest, hn, hv]
  exact congrArg Except.ok
    (sortPairs_manifest n (get_description rd) v (get_github_url g) _)

/-! ## Witness fixtures -/

/-- A project file with all three fields populated. -/
def wCsproj : Csproj := ⟨some ("Mod"), some ("1.0"), some ("My Mod")⟩

/-- A filesystem holding every required source file (no changelog). -/
def wFS : FS :=
  [("manifest.json", FileData.text ("m")),
   ("img/icon.png", FileData.text ("i")),
   ("README.md", FileData.text ("r")),
   ("bin/Debug/net472/Mod.dll", FileData.text ("d"))]

/-! ## Claims C6, C7, C10: project-file metadata lookups -/

/-- Claim C6: for every project definition file in which the assembly-name
field is present and non-empty, get_dll_name returns the assembly base name
with the fixed ".dll" extension appended, and the result is never empty. -/
theorem c6_artifact_name (c : Csproj) (s : String)
    (h1 : c.assemblyName = some s) (h2 : s ≠ "") :
    get_dll_name (some c) = Except.ok (s ++ ".dll") ∧ s ++ ".dll" ≠ "" := by
  refine ⟨?_, append_dll_ne_empty s⟩
  simp [get_dll_name, retreive_csproj_element, h1, h2]

theorem c6_artifact_name_witness :
    get_dll_name (some wCsproj) = Except.ok ("Mod" ++ ".dll") ∧
      ("Mod" ++ ".dll" : String) ≠ "" :=
  c6_artifact_name wCsproj ("Mod") rfl (by decide)

/-- Claim C7: every lookup of a required metadata field on a project file in
which the field is absent or empty terminates the process with exit code 1
(Except.error 1), as does any lookup on a malformed (unparseable) file. -/
theorem c7_missing_field_exits (c : Csproj) :
    (get_dll_name none = Except.error 1 ∧ get_dll_version none = Except.error 1 ∧
      get_mod_name none = Except.error 1) ∧
    (c.assemblyName = none ∨ c.assemblyName = some ("") →
      get_dll_name (some c) = Except.error 1) ∧
    (c.version = none ∨ c.version = some ("") →
      get_dll_version (some c) = Except.error 1) ∧
    (c.product = none ∨ c.product = some ("") →
      get_mod_name (some c) = Except.error 1) := by
  refine ⟨⟨rfl, rfl, rfl⟩, ?_, ?_, ?_⟩ <;>
    rintro (h | h) <;>
      simp [get_dll_name, get_dll_version, get_mod_name, retreive_csproj_element, h]

theorem c7_missing_field_exits_witness :
    get_dll_name none = Except.error 1 ∧
      get_dll_name (some ⟨none, some (""), none⟩) = Except.error 1 ∧
      get_dll_version (some ⟨none, some (""), none⟩) = Except.error 1 :=
  ⟨(c7_missing_field_exits ⟨none, some (""), none⟩).1.1,
   (c7_missing_field_exits ⟨none, some (""), none⟩).2.1 (Or.inl rfl),
   (c7_missing_field_exits ⟨none, some (""), none⟩).2.2.1 (Or.inr rfl)⟩

/-- Claim C10: element text is returned raw, without trimming, and
propagates verbatim into the DLL name, the zip file name
{mod name}-{version}.zip, and the manifest fields. -/
theorem c10_raw_text (c : Csproj) (a v p : String)
    (ha : c.assemblyName = some a) (ha2 : a ≠ "")
    (hv : c.version = some v) (hv2 : v ≠ "")
    (hp : c.product = some p) (hp2 : p ≠ "") :
    retreive_csproj_element (some c) Csproj.assemblyName = Except.ok a ∧
    retreive_csproj_element (some c) Csproj.version = Except.ok v ∧
    retreive_csproj_element (some c) Csproj.product = Except.ok p ∧
    mkPackagerCore (some c) =
      Except.ok (a ++ ".dll", DLL_SOURCE_FOLDER ++ "/" ++ (a ++ ".dll"),
        p ++ "-" ++ v ++ ".zip") ∧
    ∀ rd g, ∃ pairs, build_manifest (some c) rd g = Except.ok pairs ∧
      pairs.lookup ("name") = some (JVal.jstr p) ∧
      pairs.lookup ("version_number") = some (JVal.jstr v) := by
  have h1 : retreive_csproj_element (some c) Csproj.assemblyName = Except.ok a := by
    simp [retreive_csproj_element, ha, ha2]
  have h2 : retreive_csproj_element (some c) Csproj.version = Except.ok v := by
    simp [retreive_csproj_element, hv, hv2]
  have h3 : retreive_csproj_element (some c) Csproj.product = Except.ok p := by
    simp [retreive_csproj_element, hp, hp2]
  refine ⟨h1, h2, h3, ?_, ?_⟩
  · simp [mkPackagerCore, get_dll_name, get_dll_path, get_mod_name, get_dll_version,
      h1, h2, h3]
  · intro rd g
    refine ⟨_, build_manifest_ok (some c) rd g p v h3 h2, ?_, ?_⟩ <;> rfl

theorem c10_raw_text_witness :
    retreive_csproj_element (some ⟨some (" My Mod "), some (" 1.0 "), some (" Name ")⟩)
      Csproj.assemblyName = Except.ok (" My Mod ") := by
  exact (c10_raw_text ⟨some (" My Mod "), some (" 1.0 "), some (" Name ")⟩
    (" My Mod ") (" 1.0 ") (" Name ") rfl (by decide) rfl (by decide) rfl (by decide)).1

/-! ## Claim C5: manifest keys sorted, serialize/parse round-trip -/

/-- Claim C5: the manifest written by build_manifest is a JSON object whose
top-level keys appear in sorted alphabetical order, and parsing it back
yields exactly the record that was serialized (name, description,
version_number, website_url, dependencies in order). -/
theorem c5_manifest_roundtrip (c : CsprojFile) (rd : Option (List String))
    (g : GitOutcome) (pairs : List (String × JVal))
    (h : build_manifest c rd g = Except.ok pairs) :
    pairs.map Prod.fst =
      ["dependencies", "description", "name", "version_number", "website_url"] ∧
    sortedKeysB (pairs.map Prod.fst) = true ∧
    ∃ n v, get_mod_name c = Except.ok n ∧ get_dll_version c = Except.ok v ∧
      parseManifest pairs =
        some ⟨n, get_description rd, v, get_github_url g,
          ["BepInEx-BepInExPack-5.4.2100"]⟩ := by
  cases hn : get_mod_name c with
  | error k => simp [build_manifest, hn] at h
  | ok n =>
    cases hv : get_dll_version c with
    | error k => simp [build_manifest, hn, hv] at h
    | ok v =>
      have hb := build_manifest_ok c rd g n v hn hv
      rw [h] at hb
      have hp := Except.ok.inj hb
      subst hp
      exact ⟨rfl, rfl, n, v, rfl, rfl, rfl⟩

/-- Manifest value produced in the witness run below. -/
def wPairs : List (String × JVal) :=
  [("dependencies", JVal.jlist ["BepInEx-BepInExPack-5.4.2100"]),
   ("description", JVal.jstr ("")),
   ("name", JVal.jstr ("My Mod")),
   ("version_number", JVal.jstr ("1.0")),
   ("website_url", JVal.jstr (""))]

theorem c5_manifest_roundtrip_witness :
    sortedKeysB (wPairs.map Prod.fst) = true ∧
    parseManifest wPairs =
      some ⟨"My Mod", "", "1.0", "", ["BepInEx-BepInExPack-5.4.2100"]⟩ := by
  obtain ⟨-, hs, n, v, hn, hv, hp⟩ :=
    c5_manifest_roundtrip (some wCsproj) none GitOutcome.absent wPairs rfl
  have en : n = "My Mod" := by
    have h2 : (Except.ok n : Except Nat String) = Except.ok ("My Mod") :=
      hn.symm.trans rfl
    exact Except.ok.inj h2
  have ev : v = "1.0" := by
    have h2 : (Except.ok v : Except Nat String) = Except.ok ("1.0") :=
      hv.symm.trans rfl
    exact Except.ok.inj h2
  subst en; subst ev
  exact ⟨hs, hp⟩

/-! ## Claim C4 (corrected): the repository URL resolver -/

/-- Modelled from the claim's words (not the source): the HTTPS form obtained
by substituting the leading SSH host pattern of the string with the web
pattern. -/
def claimedSshRewrite (s : String) : String :=
  String.mk (webPat ++ s.data.drop sshPat.length)

/-- Claim C4 as stated fails on the code: the source uses Python
str.replace, which substitutes every occurrence of `git@github.com:`, not
only the leading one; on a remote string that contains the pattern twice the
output differs from substituting the leading occurrence only. -/
theorem c4_url_counterexample :
    get_github_url (GitOutcome.ran 0 ("git@github.com:a/git@github.com:b")) =
      "https://github.com/a/https://github.com/b" ∧
    claimedSshRewrite ("git@github.com:a/git@github.com:b") =
      "https://github.com/a/git@github.com:b" ∧
    get_github_url (GitOutcome.ran 0 ("git@github.com:a/git@github.com:b")) ≠
      claimedSshRewrite ("git@github.com:a/git@github.com:b") :=
  ⟨by decide, by decide, by decide⟩

theorem ssh_not_web (l : List Char) (h : leadsWith sshPat l = true) :
    leadsWith webPat l = false := by
  cases l with
  | nil => simp [sshPat, leadsWith] at h
  | cons c cs =>
    have hc : c = 'g' := by
      simp [sshPat, leadsWith] at h
      exact h.1.symm
    subst hc
    simp [webPat, leadsWith]

/-- Claim C4 as amended: a remote string beginning with the HTTPS web prefix
is returned unchanged; one beginning with the SSH host pattern is rewritten
by substituting every occurrence of the pattern (Python str.replace) —
in practice remote URLs contain it once, leadingly; any other string, a
non-zero tool exit, or an absent tool yields the empty string.  The function
never terminates the process (it returns a plain string on every path). -/
theorem c4_url_mapping (code : Int) (out : String) :
    get_github_url GitOutcome.absent = "" ∧
    (code ≠ 0 → get_github_url (GitOutcome.ran code out) = "") ∧
    (code = 0 → leadsWith webPat (pyStrip out).data = true →
      get_github_url (GitOutcome.ran code out) = pyStrip out) ∧
    (code = 0 → leadsWith sshPat (pyStrip out).data = true →
      get_github_url (GitOutcome.ran code out) = pyReplaceSsh (pyStrip out)) ∧
    (code = 0 → leadsWith webPat (pyStrip out).data = false →
      leadsWith sshPat (pyStrip out).data = false →
      get_github_url (GitOutcome.ran code out) = "") := by
  refine ⟨rfl, ?_, ?_, ?_, ?_⟩
  · intro h; simp [get_github_url, h]
  · intro h0 hw; subst h0; simp [get_github_url, hw]
  · intro h0 hs; subst h0
    have hw := ssh_not_web _ hs
    simp [get_github_url, hw, hs]
  · intro h0 hw hs; subst h0; simp [get_github_url, hw, hs]

theorem c4_url_mapping_witness :
    get_github_url (GitOutcome.ran 0 ("git@github.com:org/repo.git")) =
      pyReplaceSsh (pyStrip ("git@github.com:org/repo.git")) ∧
    get_github_url (GitOutcome.ran 1 ("x")) = "" :=
  ⟨(c4_url_mapping 0 ("git@github.com:org/repo.git")).2.2.2.1 rfl (by decide),
   (c4_url_mapping 1 ("x")).2.1 (by decide)⟩

/-! ## Claim C3 (corrected): the Summary-section extractor -/

/-- Modelled from the claim's words (not the source): the non-empty trimmed
lines following the first Summary heading up to the next heading line of any
level, joined with single spaces. -/
def claimedSummaryLines (lines : List String) : List String :=
  match lines.dropWhile (fun l => !matchesSummaryHead l) with
  | [] => []
  | _ :: after =>
    ((after.takeWhile (fun l => !headingB l)).map pyStrip).filter
      (fun t => !(t == ""))

/-- The claim's description function (see claimedSummaryLines). -/
def claimedDescription (lines : List String) : String :=
  joinWithSpaces (claimedSummaryLines lines)

/-- The amended section contents: lines after the first Summary heading up to
the next heading line that does not itself match the Summary pattern;
Summary-matching heading lines inside the section are skipped. -/
def amendedSummaryLines (lines : List String) : List String :=
  match lines.dropWhile (fun l => !matchesSummaryHead l) with
  | [] => []
  | _ :: after =>
    ((((after.takeWhile (fun l => matchesSummaryHead l || !headingB l)).filter
        (fun l => !matchesSummaryHead l)).map pyStrip).filter
      (fun t => !(t == "")))

theorem collectSummary_eq (ls : List String) :
    collectSummary ls =
      ((((ls.takeWhile (fun l => matchesSummaryHead l || !headingB l)).filter
          (fun l => !matchesSummaryHead l)).map pyStrip).filter
        (fun t => !(t == ""))) := by
  induction ls with
  | nil => rfl
  | cons l ls ih =>
    by_cases h1 : matchesSummaryHead l = true
    · simp [collectSummary, h1, List.takeWhile_cons, ih]
    · have h1' : matchesSummaryHead l = false := by
        simpa using h1
      by_cases h2 : headingB l = true
      · simp [collectSummary, h1', h2, List.takeWhile_cons]
      · have h2' : headingB l = false := by
          simpa using h2
        by_cases h3 : pyStrip l = ""
        · simp [collectSummary, h1', h2', h3, List.takeWhile_cons, ih]
        · have h3' : (pyStrip l == "") = false := beq_eq_false_iff_ne.mpr h3
          simp [collectSummary, h1', h2', h3, h3', List.takeWhile_cons, ih]

theorem scanSummary_eq (ls : List String) :
    scanSummary ls = amendedSummaryLines ls := by
  induction ls with
  | nil => rfl
  | cons l ls ih =>
    by_cases h1 : matchesSummaryHead l = true
    · simp [scanSummary, h1, amendedSummaryLines, List.dropWhile_cons,
        collectSummary_eq]
    · have h1' : matchesSummaryHead l = false := by
        simpa using h1
      simp only [scanSummary, h1', Bool.false_eq_true, if_false, ih,
        amendedSummaryLines, List.dropWhile_cons, Bool.not_false, if_true]

/-- Claim C3 as amended: get_description returns the non-empty trimmed lines
following the first Summary heading, up to the next heading line that does
not itself match the Summary pattern (further Summary-matching heading lines
inside the section are skipped), joined with single spaces; a document with
no Summary heading — or an absent file — yields the empty string; the spec's
concrete example is reproduced. -/
theorem c3_description (lines : List String) :
    get_description (some lines) = joinWithSpaces (amendedSummaryLines lines) ∧
    ((∀ l ∈ lines, matchesSummaryHead l = false) →
      get_description (some lines) = "") ∧
    get_description none = "" ∧
    get_description (some ["## Summary", "Line one.", "", "Line two.", "## Next"]) =
      "Line one. Line two." := by
  refine ⟨?_, ?_, rfl, by decide⟩
  · simp [get_description, scanSummary_eq]
  · intro h
    have hd : lines.dropWhile (fun l => !matchesSummaryHead l) = [] := by
      rw [List.dropWhile_eq_nil_iff]
      intro x hx
      simp [h x hx]
    simp [get_description, scanSummary_eq, amendedSummaryLines, hd,
      joinWithSpaces]

theorem c3_description_witness :
    get_description (some ["# Intro", "text"]) = "" :=
  (c3_description ["# Intro", "text"]).2.1 (by decide)

/-- Claim C3 as stated fails on the code: a heading line that itself matches
the Summary pattern does not end the section (the loop skips it via
`continue` before the heading check), so content after a second Summary
heading is still collected, while the claim's "up to the next heading line"
reading stops there. -/
theorem c3_description_counterexample :
    get_description (some ["## Summary", "A", "## Summary", "B"]) = "A B" ∧
    claimedDescription ["## Summary", "A", "## Summary", "B"] = "A" ∧
    get_description (some ["## Summary", "A", "## Summary", "B"]) ≠
      claimedDescription ["## Summary", "A", "## Summary", "B"] :=
  ⟨by decide, by decide, by decide⟩

/-! ## Claim C2: guaranteed cleanup and non-zero exit on failure -/

theorem retreive_error_code (file : CsprojFile) (field : Csproj → Option String)
    (k : Nat) (h : retreive_csproj_element file field = Except.error k) : k = 1 := by
  unfold retreive_csproj_element at h
  split at h
  · exact (Except.error.inj h).symm
  · split at h
    · split at h
      · exact (Except.error.inj h).symm
      · exact absurd h (by simp)
    · exact (Except.error.inj h).symm

theorem get_dll_name_error_code (c : CsprojFile) (k : Nat)
    (h : get_dll_name c = Except.error k) : k = 1 := by
  unfold get_dll_name at h
  cases hr : retreive_csproj_element c Csproj.assemblyName with
  | error k2 =>
    rw [hr] at h
    have := Except.error.inj h
    exact this ▸ retreive_error_code c Csproj.assemblyName k2 hr
  | ok t => rw [hr] at h; exact absurd h (by simp)

theorem get_dll_path_error_code (c : CsprojFile) (k : Nat)
    (h : get_dll_path c = Except.error k) : k = 1 := by
  unfold get_dll_path at h
  cases hr : get_dll_name c with
  | error k2 =>
    rw [hr] at h
    have := Except.error.inj h
    exact this ▸ get_dll_name_error_code c k2 hr
  | ok t => rw [hr] at h; exact absurd h (by simp)

theorem mkPackagerCore_error_code (c : CsprojFile) (k : Nat)
    (h : mkPackagerCore c = Except.error k) : k = 1 := by
  unfold mkPackagerCore at h
  cases h1 : get_dll_name c with
  | error k2 =>
    rw [h1] at h
    exact (Except.error.inj h) ▸ get_dll_name_error_code c k2 h1
  | ok dn =>
    rw [h1] at h
    cases h2 : get_dll_path c with
    | error k2 =>
      rw [h2] at h
      exact (Except.error.inj h) ▸ get_dll_path_error_code c k2 h2
    | ok sp =>
      rw [h2] at h
      cases h3 : get_mod_name c with
      | error k2 =>
        rw [h3] at h
        exact (Except.error.inj h) ▸ retreive_error_code c Csproj.product k2 h3
      | ok mn =>
        rw [h3] at h
        cases h4 : get_dll_version c with
        | error k2 =>
          rw [h4] at h
          exact (Except.error.inj h) ▸ retreive_error_code c Csproj.version k2 h4
        | ok v => rw [h4] at h; exact absurd h (by simp)

theorem copy_files_error_code (fs : FS) (specs : List FileSpec)
    (st : List (String × FileData)) (k : Nat)
    (h : copy_files fs st specs = Except.error k) : k = 1 := by
  induction specs generalizing st with
  | nil => exact absurd h (by simp [copy_files])
  | cons spec rest ih =>
    unfold copy_files at h
    split at h
    · split at h
      · exact (Except.error.inj h).symm
      · exact ih _ h
    · split at h
      · exact (Except.error.inj h).symm
      · exact ih _ h

theorem process_stagingAbsent (fs : FS) (p : Packager) (f : Faults) :
    (process fs p f).stagingAbsent = true := by
  unfold process
  split
  · rfl
  · split
    · rfl
    · split
      · rfl
      · rfl

theorem process_exit_code (fs : FS) (p : Packager) (f : Faults) (k : Nat)
    (h : (process fs p f).result = RunResult.exited k) : k = 1 := by
  unfold process at h
  split at h
  · exact (RunResult.exited.inj h).symm
  · split at h
    · rename_i k2 hc
      exact (RunResult.exited.inj h) ▸ copy_files_error_code fs _ [] k2 hc
    · split at h
      · exact (RunResult.exited.inj h).symm
      · exact absurd h (by simp)

/-- Claim C2: on every exit path of the packager — success, a missing
required file, an unexpected I/O error during copying, or a failure while
writing the archive (and also an exit during __init__, before the staging
directory ever exists) — the staging directory does not exist when the
process terminates, and every failure path terminates with a non-zero exit
code (namely 1). -/
theorem c2_cleanup (c : CsprojFile) (fs : FS) (ts : String) (f : Faults) :
    (runPackager c fs ts f).stagingAbsent = true ∧
    ∀ k, (runPackager c fs ts f).result = RunResult.exited k → k ≠ 0 := by
  unfold runPackager
  cases hmk : mkPackager c ts with
  | error k2 =>
    refine ⟨rfl, fun k hk => ?_⟩
    have hk2 := RunResult.exited.inj hk
    unfold mkPackager at hmk
    cases hc : mkPackagerCore c with
    | error k3 =>
      rw [hc] at hmk
      have e1 := Except.error.inj hmk
      have e2 := mkPackagerCore_error_code c k3 hc
      omega
    | ok t => rw [hc] at hmk; exact absurd hmk (by simp)
  | ok p =>
    refine ⟨process_stagingAbsent fs p f, fun k hk => ?_⟩
    have := process_exit_code fs p f k hk
    omega

theorem c2_cleanup_witness :
    (runPackager none [] ("ts") ⟨false, false⟩).stagingAbsent = true ∧
      (1 : Nat) ≠ 0 :=
  ⟨(c2_cleanup none [] ("ts") ⟨false, false⟩).1,
   (c2_cleanup none [] ("ts") ⟨false, false⟩).2 1 rfl⟩

/-! ## Claims C1 and C9: exact archive contents, flat entry names -/

theorem stagePut_fresh (st : List (String × FileData)) (n : String) (d : FileData)
    (h : st.any (fun e => e.1 == n) = false) : stagePut st n d = st ++ [(n, d)] := by
  unfold stagePut
  rw [h]
  simp

theorem beq_dll_false (k s : String) (h : k.data.reverse.headD ' ' ≠ 'l') :
    (k == s ++ ".dll") = false :=
  beq_eq_false_iff_ne.mpr (fun he => append_dll_ne s k h he.symm)

theorem copy_files_cons_found (fs : FS) (st : List (String × FileData))
    (spec : FileSpec) (rest : List FileSpec) (content : FileData)
    (hm : fs.lookup spec.path = some content)
    (hs : hasSlash (destNameOf spec) = false) :
    copy_files fs st (spec :: rest) =
      copy_files fs (stagePut st (destNameOf spec) content) rest := by
  simp [copy_files, hm, hs]

theorem copy_files_cons_slash (fs : FS) (st : List (String × FileData))
    (spec : FileSpec) (rest : List FileSpec) (content : FileData)
    (hm : fs.lookup spec.path = some content)
    (hs : hasSlash (destNameOf spec) = true) :
    copy_files fs st (spec :: rest) = Except.error 1 := by
  simp [copy_files, hm, hs]

theorem copy_files_cons_missing_req (fs : FS) (st : List (String × FileData))
    (spec : FileSpec) (rest : List FileSpec)
    (hm : fs.lookup spec.path = none) (hr : spec.required = true) :
    copy_files fs st (spec :: rest) = Except.error 1 := by
  simp [copy_files, hm, hr]

theorem copy_files_cons_missing_opt (fs : FS) (st : List (String × FileData))
    (spec : FileSpec) (rest : List FileSpec)
    (hm : fs.lookup spec.path = none) (hr : spec.required = false) :
    copy_files fs st (spec :: rest) = copy_files fs st rest := by
  simp [copy_files, hm, hr]

theorem copy_dll_last (fs : FS) (sp s : String) (st : List (String × FileData))
    (a : List (String × FileData))
    (hfresh : st.any (fun e => e.1 == s ++ ".dll") = false)
    (h : copy_files fs st [⟨sp, true, some (s ++ ".dll")⟩] = Except.ok a) :
    hasSlash (s ++ ".dll") = false ∧
    ∃ d, fs.lookup sp = some d ∧ a = st ++ [(s ++ ".dll", d)] := by
  cases hm : fs.lookup sp with
  | none =>
    rw [copy_files_cons_missing_req fs st ⟨sp, true, some (s ++ ".dll")⟩ _ hm rfl]
      at h
    exact absurd h (by simp)
  | some d =>
    by_cases hsl : hasSlash (destNameOf ⟨sp, true, some (s ++ ".dll")⟩) = true
    · rw [copy_files_cons_slash fs st ⟨sp, true, some (s ++ ".dll")⟩ _ d hm hsl]
        at h
      exact absurd h (by simp)
    · have hsl' : hasSlash (destNameOf ⟨sp, true, some (s ++ ".dll")⟩) = false := by
        simpa using hsl
      rw [copy_files_cons_found fs st ⟨sp, true, some (s ++ ".dll")⟩ _ d hm hsl']
        at h
      rw [show destNameOf ⟨sp, true, some (s ++ ".dll")⟩ = s ++ ".dll" from rfl]
        at h hsl'
      rw [stagePut_fresh st _ d hfresh] at h
      unfold copy_files at h
      exact ⟨hsl', d, rfl, (Except.ok.inj h).symm⟩

theorem copy_chain (fs : FS) (s sp : String) (a : List (String × FileData))
    (h : copy_files fs []
      (DEFAULT_FILESPEC ++ [⟨sp, true, some (s ++ ".dll")⟩]) = Except.ok a) :
    hasSlash (s ++ ".dll") = false ∧
    a.map Prod.fst =
      ["manifest.json", "icon.png", "README.md"] ++
        (if (fs.lookup ("CHANGELOG.md")).isSome then ["CHANGELOG.md"] else []) ++
        [s ++ ".dll"] := by
  have f1 : (("manifest.json" : String) == s ++ ".dll") = false :=
    beq_dll_false _ s (by decide)
  have f2 : (("icon.png" : String) == s ++ ".dll") = false :=
    beq_dll_false _ s (by decide)
  have f3 : (("README.md" : String) == s ++ ".dll") = false :=
    beq_dll_false _ s (by decide)
  have f4 : (("CHANGELOG.md" : String) == s ++ ".dll") = false :=
    beq_dll_false _ s (by decide)
  rw [show DEFAULT_FILESPEC ++ [(⟨sp, true, some (s ++ ".dll")⟩ : FileSpec)] =
    ⟨"manifest.json", true, none⟩ :: ⟨"img/icon.png", true, some ("icon.png")⟩ ::
    ⟨"README.md", true, none⟩ :: ⟨"CHANGELOG.md", false, none⟩ ::
    [⟨sp, true, some (s ++ ".dll")⟩] from rfl] at h
  cases h1 : fs.lookup ("manifest.json") with
  | none =>
    rw [copy_files_cons_missing_req fs [] ⟨"manifest.json", true, none⟩ _ h1 rfl] at h
    exact absurd h (by simp)
  | some m =>
    rw [copy_files_cons_found fs [] ⟨"manifest.json", true, none⟩ _ m h1 rfl] at h
    rw [show stagePut [] (destNameOf ⟨"manifest.json", true, none⟩) m =
      [("manifest.json", m)] from rfl] at h
    cases h2 : fs.lookup ("img/icon.png") with
    | none =>
      rw [copy_files_cons_missing_req fs _ ⟨"img/icon.png", true, some ("icon.png")⟩ _ h2 rfl] at h
      exact absurd h (by simp)
    | some i =>
      rw [copy_files_cons_found fs _ ⟨"img/icon.png", true, some ("icon.png")⟩ _ i h2 rfl] at h
      rw [show stagePut [("manifest.json", m)]
        (destNameOf ⟨"img/icon.png", true, some ("icon.png")⟩) i =
        [("manifest.json", m), ("icon.png", i)] from rfl] at h
      cases h3 : fs.lookup ("README.md") with
      | none =>
        rw [copy_files_cons_missing_req fs _ ⟨"README.md", true, none⟩ _ h3 rfl] at h
        exact absurd h (by simp)
      | some r =>
        rw [copy_files_cons_found fs _ ⟨"README.md", true, none⟩ _ r h3 rfl] at h
        rw [show stagePut [("manifest.json", m), ("icon.png", i)]
          (destNameOf ⟨"README.md", true, none⟩) r =
          [("manifest.json", m), ("icon.png", i), ("README.md", r)] from rfl] at h
        cases h4 : fs.lookup ("CHANGELOG.md") with
        | none =>
          rw [copy_files_cons_missing_opt fs _ ⟨"CHANGELOG.md", false, none⟩ _ h4 rfl] at h
          have hfresh : ([("manifest.json", m), ("icon.png", i),
              ("README.md", r)] : List (String × FileData)).any
              (fun e => e.1 == s ++ ".dll") = false := by
            simp [List.any_cons, List.any_nil, f1, f2, f3]
          obtain ⟨hflat, d, hd, ha⟩ := copy_dll_last fs sp s _ a hfresh h
          subst ha
          refine ⟨hflat, ?_⟩
          simp [h4]
        | some ch =>
          rw [copy_files_cons_found fs _ ⟨"CHANGELOG.md", false, none⟩ _ ch h4 rfl] at h
          rw [show stagePut [("manifest.json", m), ("icon.png", i),
            ("README.md", r)] (destNameOf ⟨"CHANGELOG.md", false, none⟩) ch =
            [("manifest.json", m), ("icon.png", i), ("README.md", r),
             ("CHANGELOG.md", ch)] from rfl] at h
          have hfresh : ([("manifest.json", m), ("icon.png", i), ("README.md", r),
              ("CHANGELOG.md", ch)] : List (String × FileData)).any
              (fun e => e.1 == s ++ ".dll") = false := by
            simp [List.any_cons, List.any_nil, f1, f2, f3, f4]
          obtain ⟨hflat, d, hd, ha⟩ := copy_dll_last fs sp s _ a hfresh h
          subst ha
          refine ⟨hflat, ?_⟩
          simp [h4]

theorem mkPackagerCore_dll (c : CsprojFile) (dn sp zn : String)
    (h : mkPackagerCore c = Except.ok (dn, sp, zn)) : ∃ s, dn = s ++ ".dll" := by
  unfold mkPackagerCore at h
  split at h
  · exact absurd h (by simp)
  · rename_i dn0 h1
    split at h
    · exact absurd h (by simp)
    · split at h
      · exact absurd h (by simp)
      · split at h
        · exact absurd h (by simp)
        · have e0 := Except.ok.inj h
          have e1 : dn0 = dn := congrArg Prod.fst e0
          unfold get_dll_name at h1
          split at h1
          · exact absurd h1 (by simp)
          · rename_i t h2
            have e2 : t ++ ".dll" = dn0 := Except.ok.inj h1
            exact ⟨t, by rw [← e1, ← e2]⟩

theorem process_success (fs : FS) (p : Packager) (f : Faults)
    (a : List (String × FileData)) (z : String)
    (h : (process fs p f).result = RunResult.success a z) :
    copy_files fs [] (prepare_file_spec p) = Except.ok a ∧ z = p.zip_file_name := by
  unfold process at h
  split at h
  · exact absurd h (by simp)
  · split at h
    · exact absurd h (by simp)
    · split at h
      · exact absurd h (by simp)
      · rename_i staged hcopy hzip
        have e := RunResult.success.inj h
        exact ⟨e.1 ▸ hcopy, e.2.symm⟩

/-- Claim C1: every successful FilePackager.process run produces an archive
whose entries are exactly those staged from the effective file list — the
manifest, the icon renamed to icon.png, the readme, the changelog iff it was
present as a source file, and the build artifact under its canonical DLL
name — no other entries and no missing required entries. -/
theorem c1_archive_entries (c : Csproj) (fs : FS) (ts : String) (f : Faults)
    (dn sp zn z : String) (a : List (String × FileData))
    (hmk : mkPackagerCore (some c) = Except.ok (dn, sp, zn))
    (hrun : (process fs ⟨dn, sp, tempDirName ts, zn⟩ f).result =
      RunResult.success a z) :
    a.map Prod.fst =
      ["manifest.json", "icon.png", "README.md"] ++
        (if (fs.lookup ("CHANGELOG.md")).isSome then ["CHANGELOG.md"] else []) ++
        [dn] := by
  obtain ⟨s, rfl⟩ := mkPackagerCore_dll (some c) dn sp zn hmk
  obtain ⟨hc, -⟩ := process_success fs _ f a z hrun
  exact (copy_chain fs s sp a hc).2

/-- Claim C9: every entry name of a produced archive is a flat file name
containing no path separator — the copy phase stages each file directly at
the staging root under its rename_to or base name, and a derived DLL name
that would denote a subdirectory makes the copy fail before any archive is
produced. -/
theorem c9_flat_entries (c : Csproj) (fs : FS) (ts : String) (f : Faults)
    (dn sp zn z : String) (a : List (String × FileData))
    (hmk : mkPackagerCore (some c) = Except.ok (dn, sp, zn))
    (hrun : (process fs ⟨dn, sp, tempDirName ts, zn⟩ f).result =
      RunResult.success a z) :
    ∀ n ∈ a.map Prod.fst, hasSlash n = false := by
  obtain ⟨s, rfl⟩ := mkPackagerCore_dll (some c) dn sp zn hmk
  obtain ⟨hc, -⟩ := process_success fs _ f a z hrun
  obtain ⟨hflat, hnames⟩ := copy_chain fs s sp a hc
  intro n hn
  rw [hnames] at hn
  cases h4 : (fs.lookup ("CHANGELOG.md")).isSome with
  | true =>
    rw [h4] at hn
    simp at hn
    rcases hn with rfl | rfl | rfl | rfl | rfl
    · rfl
    · rfl
    · rfl
    · rfl
    · exact hflat
  | false =>
    rw [h4] at hn
    simp at hn
    rcases hn with rfl | rfl | rfl | rfl
    · rfl
    · rfl
    · rfl
    · exact hflat

/-- The archive contents of the witness run. -/
def wArchive : List (String × FileData) :=
  [("manifest.json", FileData.text ("m")), ("icon.png", FileData.text ("i")),
   ("README.md", FileData.text ("r")), ("Mod.dll", FileData.text ("d"))]

theorem c1_archive_entries_witness :
    wArchive.map Prod.fst = ["manifest.json", "icon.png", "README.md", "Mod.dll"] := by
  have h := c1_archive_entries wCsproj wFS ("ts") ⟨false, false⟩
    ("Mod.dll") ("bin/Debug/net472/Mod.dll") ("My Mod-1.0.zip") ("My Mod-1.0.zip")
    wArchive rfl rfl
  simpa using h

theorem c9_flat_entries_witness : hasSlash ("Mod.dll") = false :=
  c9_flat_entries wCsproj wFS ("ts") ⟨false, false⟩
    ("Mod.dll") ("bin/Debug/net472/Mod.dll") ("My Mod-1.0.zip") ("My Mod-1.0.zip")
    wArchive rfl rfl ("Mod.dll") (by decide)

/-! ## Claim C8: the full pipeline is deterministic and idempotent -/

theorem lookup_fsWrite_ne (fs : FS) (k k' : String) (d : FileData) (h : k' ≠ k) :
    (fsWrite fs k d).lookup k' = fs.lookup k' := by
  have hb : (k' == k) = false := beq_eq_false_iff_ne.mpr h
  unfold fsWrite
  induction fs with
  | nil => simp [List.lookup, hb]
  | cons e fs ih =>
    obtain ⟨ek, ed⟩ := e
    by_cases he : ek = k
    · subst he
      simp only [List.filter_cons, beq_self_eq_true, Bool.not_true,
        Bool.false_eq_true, if_false] at ih ⊢
      rw [ih]
      simp [List.lookup, hb]
    · have hp : (ek == k) = false := beq_eq_false_iff_ne.mpr he
      by_cases hk : k' = ek
      · subst hk
        simp [List.lookup, List.filter_cons, hp, hb]
      · have hkb : (k' == ek) = false := beq_eq_false_iff_ne.mpr hk
        simp only [List.filter_cons, hp, Bool.not_false, if_true,
          List.lookup, hkb, hb] at ih ⊢
        exact ih

theorem readmeOf_fsWrite_manifest (fs : FS) (d : FileData) :
    readmeOf (fsWrite fs ("manifest.json") d) = readmeOf fs := by
  unfold readmeOf
  rw [lookup_fsWrite_ne fs _ _ d (by decide)]

theorem fsWrite_idem (fs : FS) (k : String) (d : FileData) :
    fsWrite (fsWrite fs k d) k d = fsWrite fs k d := by
  unfold fsWrite
  simp [List.filter_cons, List.filter_filter]

theorem process_temp_irrel (fs : FS) (f : Faults) (dn sp td1 td2 zn : String) :
    process fs ⟨dn, sp, td1, zn⟩ f = process fs ⟨dn, sp, td2, zn⟩ f := rfl

theorem mainRun_err (c : CsprojFile) (fs : FS) (g : GitOutcome) (ts : String)
    (f : Faults) (k : Nat) (hb : build_manifest c (readmeOf fs) g = Except.error k) :
    mainRun c fs g ts f = ⟨none, ⟨RunResult.exited k, true⟩⟩ := by
  unfold mainRun
  rw [hb]

theorem mainRun_ok (c : CsprojFile) (fs : FS) (g : GitOutcome) (ts : String)
    (f : Faults) (pairs : List (String × JVal))
    (hb : build_manifest c (readmeOf fs) g = Except.ok pairs) :
    mainRun c fs g ts f =
      match mkPackagerCore c with
      | Except.error k => ⟨some pairs, ⟨RunResult.exited k, true⟩⟩
      | Except.ok t =>
        ⟨some pairs,
         process (fsWrite fs ("manifest.json") (FileData.json pairs))
           ⟨t.1, t.2.1, tempDirName ts, t.2.2⟩ f⟩ := by
  unfold mainRun
  rw [hb]

/-- Claim C8: the full pipeline (build_manifest then FilePackager.process)
is deterministic in its observable outputs: a second run over the files the
first run leaves behind (and with a different staging timestamp) writes an
identical manifest value — hence a byte-identical manifest file under the
fixed json encoding — and yields an identical run result, in particular an
archive with identical entry names and entry contents. -/
theorem c8_deterministic (c : CsprojFile) (fs : FS) (g : GitOutcome)
    (ts1 ts2 : String) (f : Faults) :
    mainRun c (fsAfterMain c fs g) g ts2 f = mainRun c fs g ts1 f := by
  cases hb : build_manifest c (readmeOf fs) g with
  | error k =>
    have hfs : fsAfterMain c fs g = fs := by
      unfold fsAfterMain; rw [hb]
    rw [hfs, mainRun_err c fs g ts2 f k hb, mainRun_err c fs g ts1 f k hb]
  | ok pairs =>
    have hfs : fsAfterMain c fs g =
        fsWrite fs ("manifest.json") (FileData.json pairs) := by
      unfold fsAfterMain; rw [hb]
    have hb2 : build_manifest c
        (readmeOf (fsWrite fs ("manifest.json") (FileData.json pairs))) g =
        Except.ok pairs := by
      rw [readmeOf_fsWrite_manifest]; exact hb
    rw [hfs, mainRun_ok c _ g ts2 f pairs hb2, mainRun_ok c fs g ts1 f pairs hb,
      fsWrite_idem]
    cases hc : mkPackagerCore c with
    | error k => rfl
    | ok t =>
      exact congrArg (fun r => MainOut.mk (some pairs) r)
        (process_temp_irrel _ f t.1 t.2.1 (tempDirName ts2) (tempDirName ts1) t.2.2)

end WKLoad
